import Mathlib

/-!
Shallow embedding of the "hero" resource-governor module
(`src/commands/hero.py`) of the genesis CLI.

Processes are modelled as records of the results of the psutil queries the
module performs: each fallible attribute read (`proc.name()`,
`proc.username()`, `proc.memory_info().rss`, `proc.cmdline()`,
`proc.cpu_percent(None)`) is an `Option`, with `none` standing for a raised
`NoSuchProcess`/`AccessDenied` exception at that call site.  Effectful
termination code is embedded as a pure function from a world description
(which psutil calls succeed, which processes stay alive) to the trace of
signals actually delivered plus the returned value.
-/

namespace Genesis

/-- The pid/name allow-list.  In the source these are the module globals
`ALWAYS_SAFE_PIDS` and `SAFE_PROC_NAMES`; the embedding passes them as one
explicit parameter. -/
structure SafeSet where
  pids : List Nat
  names : List String
deriving Repr, DecidableEq

/-- `SAFE_PROC_NAMES` from `hero.py`: process names that must never be
killed. -/
def SAFE_PROC_NAMES : List String :=
  ["plasmashell", "kwin_x11", "kwin_wayland", "Xorg", "Xwayland", "gnome-shell",
   "sddm", "gdm", "systemd", "systemd-logind",
   "pipewire", "wireplumber", "pulseaudio",
   "NetworkManager", "wpa_supplicant", "dhcpcd", "chronyd", "systemd-resolved",
   "dbus-daemon", "polkitd", "udisksd", "upowerd", "bluetoothd", "cupsd", "avahi-daemon",
   "zsh", "bash", "fish", "sh", "python", "python3", "perl", "ruby",
   "kded5", "ksmserver", "kdeinit5", "kdeinit6", "kglobalaccel5", "kglobalaccel",
   "genesis",
   "explorer.exe", "taskmgr.exe", "csrss.exe", "lsass.exe",
   "winlogon.exe", "dwm.exe", "svchost.exe", "services.exe",
   "wininit.exe", "smss.exe", "spoolsv.exe", "Registry", "System"]

/-- `ALWAYS_SAFE_PIDS = {1, os.getpid()}`, parameterised by the governor's
own pid. -/
def ALWAYS_SAFE_PIDS (selfPid : Nat) : List Nat := [1, selfPid]

/-- The concrete safe set the module builds from its globals. -/
def genesisSafeSet (selfPid : Nat) : SafeSet :=
  ⟨ALWAYS_SAFE_PIDS selfPid, SAFE_PROC_NAMES⟩

/-- One OS process as seen through psutil during one `run` invocation.
Attribute fields are the (stable) results of the corresponding psutil
calls; `none` means the call raises `NoSuchProcess`/`AccessDenied`.
`cpuPrimeOk` tells whether the priming `cpu_percent(None)` call succeeds,
`cpuValue` is the result of the second, post-sleep `cpu_percent(None)`
call (`none`: the process vanished between the two reads). -/
structure Proc where
  pid : Nat
  nameAttr : Option String
  usernameAttr : Option String
  rssBytes : Option ℚ
  cmdlineAttr : Option (List String)
  cpuPrimeOk : Bool
  cpuValue : Option ℚ
deriving Repr, DecidableEq

/-- `Target` dataclass: a process selected for termination. -/
structure Target where
  pid : Nat
  name : String
  username : String
  rss_mb : ℚ
  cpu : ℚ
  cmdline : String
deriving Repr, DecidableEq

/-- `Target.score`: priority score, CPU weighted twice, memory half. -/
def Target.score (t : Target) : ℚ :=
  t.cpu * 2 + t.rss_mb * (1/2)

/-- `_get_memory_mb`: RSS in MB, `0.0` when the read raises. -/
def getMemoryMB (p : Proc) : ℚ :=
  match p.rssBytes with
  | some r => r / (1024 * 1024)
  | none => 0

/-- Python `" ".join(parts)`. -/
def joinSpace (parts : List String) : String :=
  String.mk ((parts.map String.data).intersperse [' '] |>.flatten)

/-- Python `s[:n]`: the first `n` characters (code points). -/
def pyTake (s : String) (n : Nat) : String :=
  String.mk (s.data.take n)

/-- Python `s.strip()`: remove leading and trailing whitespace. -/
def pyStrip (s : String) : String :=
  String.mk
    (((s.data.dropWhile Char.isWhitespace).reverse.dropWhile
        Char.isWhitespace).reverse)

/-- Python `s.startswith("[") and s.endswith("]")`: nonempty, first
character `[` and last character `]`. -/
def nameBracketed (s : String) : Bool :=
  match s.data with
  | [] => false
  | c :: rest => c == '[' && rest.getLastD c == ']'

/-- `_get_cmdline`: joined command line truncated to 300 characters, the
process name when the command line is empty, `""` when the read raises. -/
def getCmdline (p : Proc) : String :=
  match p.cmdlineAttr with
  | none => ""
  | some parts =>
      let c := joinSpace parts
      if c = "" then
        match p.nameAttr with
        | some n => n
        | none => ""
      else pyTake c 300

/-- `_is_safe_process`: pid in the safe pids, stripped name in the safe
names, bracketed kernel-thread name, or an unreadable name all classify
the process as protected. -/
def isSafeProcess (S : SafeSet) (p : Proc) : Bool :=
  if p.pid ∈ S.pids then true
  else
    match p.nameAttr with
    | none => true
    | some raw =>
        if pyStrip raw ∈ S.names then true
        else if nameBracketed (pyStrip raw) then true
        else false

/-- `_sample_cpu_usage`: prime every candidate (dropping those whose
priming read raises), sleep once, then read every survivor, recording
`0.0` for any that raises on the second read.  The returned association
list is the Python dict in insertion order. -/
def sampleCpuUsage (procs : List Proc) : List (Nat × ℚ) :=
  let alive := procs.filter (fun p => p.cpuPrimeOk)
  alive.map (fun p => (p.pid, p.cpuValue.getD 0))

/-- Python `dict.get(k, 0.0)` on an insertion-ordered association list:
the most recent binding wins. -/
def dictGet (m : List (Nat × ℚ)) (k : Nat) : ℚ :=
  match m.reverse.find? (fun kv => kv.1 == k) with
  | some kv => kv.2
  | none => 0

/-- The candidate-collection loop of `find_targets`: drop protected
processes, then apply the scope filter (a username read that raises
skips the process). -/
def collectCandidates (S : SafeSet) (currentUser : String) (scope : String)
    (procs : List Proc) : List Proc :=
  procs.filter (fun p =>
    !isSafeProcess S p &&
      (if scope = "user" then
        match p.usernameAttr with
        | some u => u = currentUser
        | none => false
      else true))

/-- The body of the target-building loop of `find_targets` for one
candidate: threshold test first, then the attribute reads needed to build
the `Target` (a raised read skips the candidate). -/
def buildOne (fast : Bool) (cpuMap : List (Nat × ℚ)) (memThr cpuThr : ℚ)
    (p : Proc) : Option Target :=
  let cpu : ℚ := if fast then 0 else dictGet cpuMap p.pid
  let rss := getMemoryMB p
  if memThr ≤ rss ∨ cpuThr ≤ cpu then
    match p.nameAttr, p.usernameAttr with
    | some n, some u =>
        some ⟨p.pid, if n = "" then "?" else n, if u = "" then "?" else u,
              rss, cpu, getCmdline p⟩
    | _, _ => none
  else none

/-- The target-building loop of `find_targets` over all candidates. -/
def buildTargets (fast : Bool) (cpuMap : List (Nat × ℚ)) (memThr cpuThr : ℚ)
    (cands : List Proc) : List Target :=
  cands.filterMap (buildOne fast cpuMap memThr cpuThr)

/-- The ordering used by `targets.sort(key=lambda t: t.score(), reverse=True)`:
descending score. -/
def scoreGE (a b : Target) : Prop := b.score ≤ a.score

instance : DecidableRel scoreGE := fun a b =>
  inferInstanceAs (Decidable (b.score ≤ a.score))

instance : IsTotal Target scoreGE := ⟨fun a b => le_total b.score a.score⟩

instance : IsTrans Target scoreGE :=
  ⟨fun _ _ _ hab hbc => le_trans hbc hab⟩

/-- The unsorted target list `find_targets` builds before sorting:
candidates, CPU map (empty in fast mode), then the build loop. -/
def preTargets (S : SafeSet) (procs : List Proc) (currentUser scope : String)
    (memThr cpuThr : ℚ) (fast : Bool) : List Target :=
  let cands := collectCandidates S currentUser scope procs
  let cpuMap := if fast then [] else sampleCpuUsage cands
  buildTargets fast cpuMap memThr cpuThr cands

/-- `find_targets`: collect candidates, sample CPU unless fast, build
targets, sort by descending score (stable) and truncate to `limit`. -/
def findTargets (S : SafeSet) (procs : List Proc) (currentUser scope : String)
    (memThr cpuThr : ℚ) (limit : Nat) (fast : Bool) : List Target :=
  (List.insertionSort scoreGE
    (preTargets S procs currentUser scope memThr cpuThr fast)).take limit

/-- A descendant as enumerated by `proc.children(recursive=True)`.  The
termination code only ever reads its pid; the name is carried so that
safety statements about descendants can mention it. -/
structure ChildProc where
  pid : Nat
  name : String
deriving Repr, DecidableEq

/-- World description for one `_terminate_process_tree` call: whether
`psutil.Process(pid)` resolves, whether the `children` call succeeds and
what it returns, which pids are still alive after the graceful wait, and
on which pids signal delivery raises (`NoSuchProcess`/`AccessDenied`). -/
structure TermWorld where
  targetExists : Bool
  childrenOk : Bool
  children : List ChildProc
  aliveAfterWait : List Nat
  termFail : List Nat
  killFail : List Nat
deriving Repr, DecidableEq

/-- The descendants actually enumerated: the `children` result, or `[]`
when the call raised. -/
def enumeratedChildren (w : TermWorld) : List ChildProc :=
  if w.childrenOk then w.children else []

/-- Result of `_terminate_process_tree`: the returned `(success, status)`
pair plus the trace of pids to which a terminate / kill signal was
actually delivered. -/
structure TermResult where
  success : Bool
  status : String
  termSignaled : List Nat
  killSignaled : List Nat
deriving Repr, DecidableEq

/-- `_terminate_process_tree`: resolve the handle (no-op success when the
process is gone), enumerate descendants (best effort), SIGTERM every
child whose pid is not in the safe pids (delivery failures swallowed),
SIGTERM the target itself, wait, then SIGKILL every still-alive pid not
in the safe pids (delivery failures swallowed), and return
`(True, ...)`. -/
def terminateProcessTree (S : SafeSet) (pid : Nat) (w : TermWorld) :
    TermResult :=
  if !w.targetExists then
    ⟨true, "already terminated", [], []⟩
  else
    let children := enumeratedChildren w
    let childTerm := (children.filter
      (fun c => c.pid ∉ S.pids ∧ c.pid ∉ w.termFail)).map (fun c => c.pid)
    let selfTerm : List Nat := if pid ∈ w.termFail then [] else [pid]
    let killed := w.aliveAfterWait.filter
      (fun q => q ∉ S.pids ∧ q ∉ w.killFail)
    ⟨true, "terminated", childTerm ++ selfTerm, killed⟩

/-- World description for one `run` call: the enumerated processes, the
invoking user, what the confirmation prompt would answer, and the
termination world met when a given pid is terminated. -/
structure RunWorld where
  procs : List Proc
  currentUser : String
  confirmAnswer : Bool
  termWorldFor : Nat → TermWorld

/-- Observable outcome of `run`: the exit code, whether the confirmation
prompt was shown, the trace of delivered signals and the tally of
successful terminations. -/
structure RunResult where
  exitCode : Int
  confirmAsked : Bool
  termSignaled : List Nat
  killSignaled : List Nat
  terminatedCount : Nat
deriving Repr, DecidableEq

/-- The per-target body of the termination loop in `run`: skip targets
that re-check as protected (name in safe names or pid in safe pids),
otherwise terminate the tree and tally a success. -/
def runStep (S : SafeSet) (w : RunWorld) (acc : RunResult) (t : Target) :
    RunResult :=
  if t.name ∈ S.names ∨ t.pid ∈ S.pids then acc
  else
    let r := terminateProcessTree S t.pid (w.termWorldFor t.pid)
    { acc with
      termSignaled := acc.termSignaled ++ r.termSignaled
      killSignaled := acc.killSignaled ++ r.killSignaled
      terminatedCount := acc.terminatedCount + (if r.success then 1 else 0) }

/-- `run`: find targets; stop (0) when none; stop (0) after display in
dry-run mode; when verbose, ask for confirmation and stop (0) on decline
(the prompt is skipped entirely when not verbose); then run the
termination loop with the defense-in-depth re-check, and return 0. -/
def run (S : SafeSet) (w : RunWorld) (dry_run : Bool) (scope : String)
    (memThr cpuThr : ℚ) (limit : Nat) (verbose fast : Bool) : RunResult :=
  let targets := findTargets S w.procs w.currentUser scope memThr cpuThr
    limit fast
  if targets.isEmpty then ⟨0, false, [], [], 0⟩
  else if dry_run then ⟨0, false, [], [], 0⟩
  else if verbose && !w.confirmAnswer then ⟨0, true, [], [], 0⟩
  else targets.foldl (runStep S w) ⟨0, verbose, [], [], 0⟩

/-! Concrete inputs used in witnesses and counterexamples. -/

/-- A small safe set: pids 1 and 42, names systemd and bash. -/
def safeSetW : SafeSet := ⟨[1, 42], ["systemd", "bash"]⟩

/-- An unprotected, CPU-hungry process of user alice. -/
def procChromeW : Proc := ⟨7, some "chrome", some "alice", none, some [], true, some 60⟩

/-- A process named systemd (protected by name). -/
def procSysdW : Proc := ⟨5, some "systemd", some "alice", none, some [], true, some 80⟩

/-- Safe set for the termination scenarios: pids 1 and 999, names systemd
and bash. -/
def termSafeSetW : SafeSet := ⟨[1, 999], ["systemd", "bash"]⟩

/-- Termination world: one descendant whose name (but not pid) is in the
safe set. -/
def termWorldCex : TermWorld := ⟨true, true, [⟨100, "systemd"⟩], [], [], []⟩

/-- Termination world: one unprotected descendant, one descendant whose
pid is protected, and two survivors of the graceful wait. -/
def termWorldW : TermWorld :=
  ⟨true, true, [⟨100, "worker"⟩, ⟨999, "keeper"⟩], [100, 50], [], []⟩

/-- Termination world in which delivering the terminate signal to the
target (pid 42) raises `AccessDenied`. -/
def termWorldFail : TermWorld := ⟨true, true, [], [], [42], []⟩

/-- Termination world in which the target pid no longer resolves. -/
def termWorldGone : TermWorld := ⟨false, true, [⟨100, "worker"⟩], [100], [], []⟩

/-- An unprotected process exceeding the CPU threshold. -/
def procBigW : Proc := ⟨7, some "bigproc", some "alice", none, some [], true, some 60⟩

/-- Run world for the quiet-mode scenario: one qualifying target, a user
who would decline the confirmation, and a cooperative termination
world. -/
def runWorldQuiet : RunWorld :=
  ⟨[procBigW], "alice", false, fun _ => ⟨true, true, [], [], [], []⟩⟩

/-- A candidate with 450 MB resident memory and 5 percent CPU. -/
def procIncW : Proc :=
  ⟨11, some "bigmem", some "u", some (450 * 1048576), some [], true, some 5⟩

/-- A candidate with 100 MB resident memory and 10 percent CPU. -/
def procExcW : Proc :=
  ⟨12, some "smol", some "u", some (100 * 1048576), some [], true, some 10⟩

/-- Safe set for the threshold and scoring scenarios. -/
def thresholdSafeSetW : SafeSet := ⟨[1], ["systemd"]⟩

/-- A candidate with 100 MB resident memory and 60 percent CPU
(score 170). -/
def procAlphaW : Proc :=
  ⟨21, some "alpha", some "u", some (100 * 1048576), some [], true, some 60⟩

/-- A candidate with 500 MB resident memory and 10 percent CPU
(score 270). -/
def procBetaW : Proc :=
  ⟨22, some "beta", some "u", some (500 * 1048576), some [], true, some 10⟩

/-- A candidate that primes successfully but vanishes before the second
CPU read. -/
def procVanishW : Proc := ⟨9, some "ghost", some "u", none, some [], true, none⟩

/-! Helper lemmas. -/

/-- `runStep` never changes the exit-code component. -/
theorem runStep_exitCode (S : SafeSet) (w : RunWorld) (acc : RunResult)
    (t : Target) : (runStep S w acc t).exitCode = acc.exitCode := by
  unfold runStep
  split <;> rfl

/-- The termination loop of `run` never changes the exit-code
component. -/
theorem foldl_runStep_exitCode (S : SafeSet) (w : RunWorld) :
    ∀ (l : List Target) (acc : RunResult),
      (l.foldl (runStep S w) acc).exitCode = acc.exitCode
  | [], _ => rfl
  | t :: l, acc => by
      rw [List.foldl_cons, foldl_runStep_exitCode S w l, runStep_exitCode]

/-- A key that is bound nowhere in the association list looks up to the
default `0`. -/
theorem dictGet_not_mem (m : List (Nat × ℚ)) (k : Nat)
    (h : k ∉ m.map Prod.fst) : dictGet m k = 0 := by
  unfold dictGet
  have hnone : m.reverse.find? (fun kv => kv.1 == k) = none := by
    rw [List.find?_eq_none]
    intro kv hkv hbeq
    exact h (List.mem_map.2 ⟨kv, List.mem_reverse.1 hkv, by simpa using hbeq⟩)
  rw [hnone]

/-- With pairwise-distinct keys, `find?` returns the unique binding. -/
theorem find_key_nodup : ∀ (l : List (Nat × ℚ)) (k : Nat) (v : ℚ),
    (l.map Prod.fst).Nodup → (k, v) ∈ l →
    l.find? (fun kv => kv.1 == k) = some (k, v)
  | [], _, _, _, h => absurd h (List.not_mem_nil _)
  | kv :: rest, k, v, hnd, hm => by
      have hnd0 : (kv.1 :: rest.map Prod.fst).Nodup := by
        rw [List.map_cons] at hnd
        exact hnd
      have hhead : kv.1 ∉ rest.map Prod.fst := (List.nodup_cons.1 hnd0).1
      have htail : (rest.map Prod.fst).Nodup := (List.nodup_cons.1 hnd0).2
      by_cases hk : kv.1 = k
      · have hkv : kv = (k, v) := by
          rcases List.mem_cons.1 hm with h | h
          · exact h.symm
          · exfalso
            apply hhead
            rw [hk]
            exact List.mem_map_of_mem Prod.fst h
        rw [List.find?_cons_of_pos _ (by simp [hk]), hkv]
      · have hm' : (k, v) ∈ rest := by
          rcases List.mem_cons.1 hm with h | h
          · cases h
            exact absurd rfl hk
          · exact h
        rw [List.find?_cons_of_neg _ (by simp [hk])]
        exact find_key_nodup rest k v htail hm'

/-- With pairwise-distinct keys, the dictionary lookup returns the bound
value. -/
theorem dictGet_mem {m : List (Nat × ℚ)} {k : Nat} {v : ℚ}
    (hnd : (m.map Prod.fst).Nodup) (hm : (k, v) ∈ m) : dictGet m k = v := by
  unfold dictGet
  have hnd' : (m.reverse.map Prod.fst).Nodup := by
    rw [List.map_reverse]
    exact List.nodup_reverse.2 hnd
  rw [find_key_nodup m.reverse k v hnd' (List.mem_reverse.2 hm)]

/-- Filtering on one score value commutes with an ordered insert: the
inserted element lands in front of the equal-score block exactly when it
has that score, and the block itself is unchanged. -/
theorem filter_orderedInsert_score (c : ℚ) (x : Target) :
    ∀ l : List Target,
      (List.orderedInsert scoreGE x l).filter (fun t => decide (t.score = c))
        = if x.score = c then
            x :: l.filter (fun t => decide (t.score = c))
          else l.filter (fun t => decide (t.score = c))
  | [] => by
      by_cases hx : x.score = c <;> simp [List.orderedInsert, hx]
  | y :: l => by
      by_cases hxy : scoreGE x y
      · rw [List.orderedInsert, if_pos hxy]
        by_cases hx : x.score = c <;> by_cases hy : y.score = c <;>
          simp [List.filter_cons, hx, hy]
      · rw [List.orderedInsert, if_neg hxy]
        by_cases hx : x.score = c
        · have hy : ¬ y.score = c := fun h => hxy (le_of_eq (by rw [h, hx]))
          simp [List.filter_cons, hx, hy, filter_orderedInsert_score c x l]
        · simp [List.filter_cons, hx, filter_orderedInsert_score c x l]

/-- Restricted to any one score value, insertion sort is the identity:
equal-score elements keep their original relative order (stability). -/
theorem filter_insertionSort_score (c : ℚ) :
    ∀ l : List Target,
      (List.insertionSort scoreGE l).filter (fun t => decide (t.score = c))
        = l.filter (fun t => decide (t.score = c))
  | [] => rfl
  | x :: l => by
      rw [List.insertionSort, filter_orderedInsert_score,
        filter_insertionSort_score c l]
      by_cases hx : x.score = c <;> simp [List.filter_cons, hx]

/-- `buildOne` with its local bindings inlined. -/
theorem buildOne_eq (fast : Bool) (cpuMap : List (Nat × ℚ))
    (memThr cpuThr : ℚ) (p : Proc) :
    buildOne fast cpuMap memThr cpuThr p =
      if memThr ≤ getMemoryMB p ∨
          cpuThr ≤ (if fast then 0 else dictGet cpuMap p.pid) then
        match p.nameAttr, p.usernameAttr with
        | some n, some u =>
            some ⟨p.pid, if n = "" then "?" else n, if u = "" then "?" else u,
                  getMemoryMB p, if fast then 0 else dictGet cpuMap p.pid,
                  getCmdline p⟩
        | _, _ => none
      else none := rfl

/-- Inversion for a successful `buildOne`: the name and username reads
succeeded, the threshold test passed, and the produced `Target` is the
canonical record. -/
theorem buildOne_some {fast : Bool} {cpuMap : List (Nat × ℚ)}
    {memThr cpuThr : ℚ} {p : Proc} {t : Target}
    (h : buildOne fast cpuMap memThr cpuThr p = some t) :
    ∃ n u, p.nameAttr = some n ∧ p.usernameAttr = some u ∧
      (memThr ≤ getMemoryMB p ∨
        cpuThr ≤ (if fast then 0 else dictGet cpuMap p.pid)) ∧
      t = ⟨p.pid, if n = "" then "?" else n, if u = "" then "?" else u,
            getMemoryMB p, if fast then 0 else dictGet cpuMap p.pid,
            getCmdline p⟩ := by
  rw [buildOne_eq] at h
  by_cases hcond : memThr ≤ getMemoryMB p ∨
      cpuThr ≤ (if fast then 0 else dictGet cpuMap p.pid)
  · rw [if_pos hcond] at h
    cases hn : p.nameAttr with
    | none =>
        rw [hn] at h
        exact Option.noConfusion h
    | some n =>
        cases hu : p.usernameAttr with
        | none =>
            rw [hn, hu] at h
            exact Option.noConfusion h
        | some u =>
            rw [hn, hu] at h
            exact ⟨n, u, rfl, rfl, hcond, (Option.some.inj h).symm⟩
  · rw [if_neg hcond] at h
    exact Option.noConfusion h

/-- Inversion for an unprotected classification: the pid is not in the
safe pids and the stripped name is neither a safe name nor bracketed. -/
theorem isSafeProcess_false {S : SafeSet} {p : Proc} {n : String}
    (hn : p.nameAttr = some n) (h : isSafeProcess S p = false) :
    p.pid ∉ S.pids ∧ pyStrip n ∉ S.names ∧
      nameBracketed (pyStrip n) = false := by
  unfold isSafeProcess at h
  rw [hn] at h
  dsimp only at h
  by_cases hpid : p.pid ∈ S.pids
  · rw [if_pos hpid] at h
    cases h
  · rw [if_neg hpid] at h
    by_cases hnm : pyStrip n ∈ S.names
    · rw [if_pos hnm] at h
      cases h
    · rw [if_neg hnm] at h
      by_cases hbr : nameBracketed (pyStrip n) = true
      · rw [if_pos hbr] at h
        cases h
      · exact ⟨hpid, hnm, Bool.not_eq_true _ ▸ hbr⟩

/-- Every process kept by the candidate-collection loop classified as
unprotected. -/
theorem collectCandidates_unprotected (S : SafeSet) (currentUser scope :
    String) (procs : List Proc) :
    ∀ p ∈ collectCandidates S currentUser scope procs,
      isSafeProcess S p = false := by
  intro p hp
  have h := (List.mem_filter.1 hp).2
  rw [Bool.and_eq_true] at h
  simpa using h.1

/-- The module's own safe set satisfies the side conditions used by the
protection theorem: every curated name is strip-fixed and the
placeholder name `?` is not in the list. -/
theorem genesisSafeSet_names_ok (selfPid : Nat) :
    (∀ n ∈ (genesisSafeSet selfPid).names, pyStrip n = n) ∧
    "?" ∉ (genesisSafeSet selfPid).names := by
  have h1 : ∀ n ∈ SAFE_PROC_NAMES, pyStrip n = n := by decide
  have h2 : "?" ∉ SAFE_PROC_NAMES := by decide
  exact ⟨h1, h2⟩

/-! Claim theorems. -/

/-- Claim C1: on a safe set whose names are strip-fixed and do not
contain the placeholder `?` (true of the curated `SAFE_PROC_NAMES`),
every process classified protected by `_is_safe_process` is excluded
from the candidate list, and `find_targets` never returns a `Target`
whose pid is in `SafeSet.pids` or whose name is in `SafeSet.names` — for
every threshold combination (including `(0, 0)`), scope, limit, and fast
setting. -/
theorem hero_C1_protected_never_targeted (S : SafeSet)
    (hT : ∀ n ∈ S.names, pyStrip n = n) (hQ : "?" ∉ S.names)
    (procs : List Proc) (currentUser scope : String) (memThr cpuThr : ℚ)
    (limit : Nat) (fast : Bool) :
    (∀ p ∈ collectCandidates S currentUser scope procs,
      isSafeProcess S p = false) ∧
    (∀ t ∈ findTargets S procs currentUser scope memThr cpuThr limit fast,
      t.pid ∉ S.pids ∧ t.name ∉ S.names) := by
  refine ⟨collectCandidates_unprotected S currentUser scope procs, ?_⟩
  intro t ht
  have ht1 : t ∈ List.insertionSort scoreGE
      (preTargets S procs currentUser scope memThr cpuThr fast) :=
    List.take_subset _ _ ht
  rw [List.mem_insertionSort] at ht1
  simp only [preTargets, buildTargets] at ht1
  obtain ⟨p, hp, hb⟩ := List.mem_filterMap.1 ht1
  have hsafe : isSafeProcess S p = false :=
    collectCandidates_unprotected S currentUser scope procs p hp
  obtain ⟨n, u, hn, -, -, hteq⟩ := buildOne_some hb
  obtain ⟨hpid, hnames, -⟩ := isSafeProcess_false hn hsafe
  subst hteq
  refine ⟨hpid, ?_⟩
  show (if n = "" then "?" else n) ∉ S.names
  by_cases hn0 : n = ""
  · rw [if_pos hn0]
    exact hQ
  · rw [if_neg hn0]
    intro hmem
    exact hnames (by rw [hT n hmem]; exact hmem)

/-- Witness for C1: with thresholds `(0, 0)` the unprotected process is
returned and carries neither a protected pid nor a protected name. -/
theorem hero_C1_witness :
    (⟨7, "chrome", "alice", 0, 60, "chrome"⟩ : Target).pid ∉ safeSetW.pids ∧
    (⟨7, "chrome", "alice", 0, 60, "chrome"⟩ : Target).name ∉ safeSetW.names :=
  (hero_C1_protected_never_targeted safeSetW (by decide) (by decide)
    [procSysdW, procChromeW] "alice" "user" 0 0 15 false).2
    ⟨7, "chrome", "alice", 0, 60, "chrome"⟩ (by decide)

section RatEval

attribute [local semireducible] Rat.mul Rat.inv Rat.add Rat.sub

/-- Claim C5: the target-building step keeps a candidate (with readable
name and username) iff `rss_mb >= mem_threshold OR cpu >= cpu_threshold`,
both inclusive; concretely, of a 450 MB / 5 % candidate and a
100 MB / 10 % candidate under thresholds (400, 50), exactly the first is
returned. -/
theorem hero_C5_threshold_or_semantics :
    (∀ (cpuMap : List (Nat × ℚ)) (memThr cpuThr : ℚ) (p : Proc)
        (n u : String), p.nameAttr = some n → p.usernameAttr = some u →
        ((buildOne false cpuMap memThr cpuThr p).isSome ↔
          (memThr ≤ getMemoryMB p ∨ cpuThr ≤ dictGet cpuMap p.pid))) ∧
    findTargets thresholdSafeSetW [procIncW, procExcW] "u" "all" 400 50 15
        false = [⟨11, "bigmem", "u", 450, 5, "bigmem"⟩] := by
  constructor
  · intro cpuMap memThr cpuThr p n u hn hu
    rw [buildOne_eq]
    simp only [Bool.false_eq_true, if_false]
    by_cases hcond : memThr ≤ getMemoryMB p ∨ cpuThr ≤ dictGet cpuMap p.pid
    · rw [if_pos hcond, hn, hu]
      simpa using hcond
    · rw [if_neg hcond]
      simpa using hcond
  · decide

/-- Witness for C5: the general iff instantiated at the 450 MB / 5 %
candidate. -/
theorem hero_C5_witness :
    (buildOne false [(11, (5 : ℚ))] 400 50 procIncW).isSome ↔
      ((400 : ℚ) ≤ getMemoryMB procIncW ∨
        (50 : ℚ) ≤ dictGet [(11, (5 : ℚ))] procIncW.pid) :=
  hero_C5_threshold_or_semantics.1 [(11, 5)] 400 50 procIncW "bigmem" "u"
    rfl rfl

/-- Claim C6: `find_targets` returns at most `limit` targets, sorted by
descending score, and — stability — restricted to any one score value
the output is a sublist (same relative order) of the unsorted build
order, which follows the original enumeration order. -/
theorem hero_C6_sorted_limited_stable (S : SafeSet) (procs : List Proc)
    (currentUser scope : String) (memThr cpuThr : ℚ) (limit : Nat)
    (fast : Bool) :
    (findTargets S procs currentUser scope memThr cpuThr limit
        fast).length ≤ limit ∧
    List.Sorted scoreGE
      (findTargets S procs currentUser scope memThr cpuThr limit fast) ∧
    ∀ c : ℚ,
      List.Sublist
        ((findTargets S procs currentUser scope memThr cpuThr limit
          fast).filter (fun t => decide (t.score = c)))
        ((preTargets S procs currentUser scope memThr cpuThr fast).filter
          (fun t => decide (t.score = c))) := by
  refine ⟨List.length_take_le _ _, ?_, ?_⟩
  · exact List.Pairwise.sublist (List.take_sublist _ _)
      (List.sorted_insertionSort scoreGE _)
  · intro c
    have h1 := (List.take_sublist limit (List.insertionSort scoreGE
      (preTargets S procs currentUser scope memThr cpuThr fast))).filter
      (fun t => decide (t.score = c))
    rw [filter_insertionSort_score] at h1
    exact h1

/-- Claim C7: `score = cpu_percent * 2.0 + rss_mb * 0.5`; a 60 % / 100 MB
target scores 170, a 10 % / 500 MB target scores 270, and the latter is
ranked strictly above the former by `find_targets` even though it was
enumerated second. -/
theorem hero_C7_score_formula_and_ranking :
    (∀ t : Target, t.score = t.cpu * 2 + t.rss_mb * (1/2)) ∧
    Target.score ⟨21, "alpha", "u", 100, 60, "alpha"⟩ = 170 ∧
    Target.score ⟨22, "beta", "u", 500, 10, "beta"⟩ = 270 ∧
    findTargets thresholdSafeSetW [procAlphaW, procBetaW] "u" "all" 0 0 15
        false =
      [⟨22, "beta", "u", 500, 10, "beta"⟩,
       ⟨21, "alpha", "u", 100, 60, "alpha"⟩] := by
  refine ⟨fun _ => rfl, by decide, by decide, by decide⟩

/-- Claim C9: a candidate that primes successfully but vanishes before
the second CPU read is mapped to 0.0 (not an error); an unmapped
candidate reads back 0.0 from the map; a built `Target` always records
exactly the mapped CPU value; and a memory-qualifying candidate with
readable attributes is still built, so a failed CPU sample never blocks
the target list. -/
theorem hero_C9_vanished_yields_zero :
    (∀ (procs : List Proc) (p : Proc), (procs.map Proc.pid).Nodup →
        p ∈ procs → p.cpuPrimeOk = true → p.cpuValue = none →
        dictGet (sampleCpuUsage procs) p.pid = 0) ∧
    (∀ (cpuMap : List (Nat × ℚ)) (k : Nat), k ∉ cpuMap.map Prod.fst →
        dictGet cpuMap k = 0) ∧
    (∀ (cpuMap : List (Nat × ℚ)) (memThr cpuThr : ℚ) (p : Proc)
        (t : Target), buildOne false cpuMap memThr cpuThr p = some t →
        t.cpu = dictGet cpuMap p.pid) ∧
    (∀ (cpuMap : List (Nat × ℚ)) (memThr cpuThr : ℚ) (p : Proc)
        (n u : String), p.nameAttr = some n → p.usernameAttr = some u →
        memThr ≤ getMemoryMB p →
        (buildOne false cpuMap memThr cpuThr p).isSome = true) := by
  refine ⟨?_, ?_, ?_, ?_⟩
  · intro procs p hnd hp hprime hval
    have hmem : (p.pid, (0 : ℚ)) ∈ sampleCpuUsage procs := by
      unfold sampleCpuUsage
      exact List.mem_map.2 ⟨p, List.mem_filter.2 ⟨hp, by simp [hprime]⟩,
        by rw [hval]; rfl⟩
    have hnd2 : ((sampleCpuUsage procs).map Prod.fst).Nodup := by
      unfold sampleCpuUsage
      rw [List.map_map]
      have hcomp : (Prod.fst ∘ fun q : Proc => (q.pid, q.cpuValue.getD 0))
          = Proc.pid := rfl
      rw [hcomp]
      exact List.Nodup.sublist
        ((List.filter_sublist procs).map Proc.pid) hnd
    exact dictGet_mem hnd2 hmem
  · intro cpuMap k hk
    exact dictGet_not_mem cpuMap k hk
  · intro cpuMap memThr cpuThr p t h
    obtain ⟨n, u, -, -, -, hteq⟩ := buildOne_some h
    rw [hteq]
    simp
  · intro cpuMap memThr cpuThr p n u hn hu hmem
    rw [buildOne_eq]
    simp only [Bool.false_eq_true, if_false]
    rw [if_pos (Or.inl hmem), hn, hu]
    rfl

/-- Witness for C9: the vanished candidate `procVanishW` reads back 0
from the sampled map. -/
theorem hero_C9_witness :
    dictGet (sampleCpuUsage [procChromeW, procVanishW]) procVanishW.pid
      = 0 :=
  hero_C9_vanished_yields_zero.1 [procChromeW, procVanishW] procVanishW
    (by decide) (by decide) rfl rfl

end RatEval

/-- Claim C2 (counterexample): a descendant whose **name** is in
`SafeSet.names` (here `systemd`) but whose pid is not in `SafeSet.pids`
does receive the graceful terminate signal: `_terminate_process_tree`
checks only `ALWAYS_SAFE_PIDS`, never the safe names, so the claim "never
to a descendant that is in the SafeSet" is false as stated. -/
theorem hero_C2_counterexample :
    (⟨100, "systemd"⟩ : ChildProc) ∈ enumeratedChildren termWorldCex ∧
    "systemd" ∈ termSafeSetW.names ∧ (100 : Nat) ∉ termSafeSetW.pids ∧
    100 ∈ (terminateProcessTree termSafeSetW 50 termWorldCex).termSignaled := by
  decide

/-- Claim C2 (amended): during `_terminate_process_tree` on a live target
that is not among its own descendants, a graceful terminate signal is
delivered to an enumerated descendant iff its **pid** is not in
`SafeSet.pids` and delivery does not raise; after the graceful wait, a
kill signal is delivered to a pid iff it is still alive, its pid is not
in `SafeSet.pids`, and delivery does not raise.  Membership of the
descendant's **name** in `SafeSet.names` is not consulted. -/
theorem hero_C2_signal_policy (S : SafeSet) (pid : Nat) (w : TermWorld)
    (ht : w.targetExists = true)
    (hd : ∀ c ∈ enumeratedChildren w, c.pid ≠ pid) :
    (∀ c ∈ enumeratedChildren w,
      (c.pid ∈ (terminateProcessTree S pid w).termSignaled ↔
        (c.pid ∉ S.pids ∧ c.pid ∉ w.termFail))) ∧
    (∀ q : Nat,
      q ∈ (terminateProcessTree S pid w).killSignaled ↔
        (q ∈ w.aliveAfterWait ∧ q ∉ S.pids ∧ q ∉ w.killFail)) := by
  simp only [terminateProcessTree, ht, Bool.not_true, Bool.false_eq_true,
    if_false]
  constructor
  · intro c hc
    constructor
    · intro hmem
      rcases List.mem_append.1 hmem with h | h
      · obtain ⟨c', hc', hpc⟩ := List.mem_map.1 h
        have hcond := (List.mem_filter.1 hc').2
        rw [decide_eq_true_eq] at hcond
        rw [hpc] at hcond
        exact hcond
      · by_cases hf : pid ∈ w.termFail
        · rw [if_pos hf] at h
          cases h
        · rw [if_neg hf] at h
          exact absurd (List.mem_singleton.1 h) (hd c hc)
    · intro hcond
      exact List.mem_append.2 (Or.inl (List.mem_map.2
        ⟨c, List.mem_filter.2 ⟨hc, by simpa using hcond⟩, rfl⟩))
  · intro q
    simp [List.mem_filter, and_assoc]

/-- Witness for C2: concrete instances of the amended signal policy. -/
theorem hero_C2_witness :
    (100 ∈ (terminateProcessTree termSafeSetW 50 termWorldW).termSignaled ↔
      ((100 : Nat) ∉ termSafeSetW.pids ∧ 100 ∉ termWorldW.termFail)) ∧
    (999 ∈ (terminateProcessTree termSafeSetW 50 termWorldW).termSignaled ↔
      ((999 : Nat) ∉ termSafeSetW.pids ∧ 999 ∉ termWorldW.termFail)) ∧
    (50 ∈ (terminateProcessTree termSafeSetW 50 termWorldW).killSignaled ↔
      (50 ∈ termWorldW.aliveAfterWait ∧ (50 : Nat) ∉ termSafeSetW.pids ∧
        50 ∉ termWorldW.killFail)) :=
  ⟨(hero_C2_signal_policy termSafeSetW 50 termWorldW rfl (by decide)).1
      ⟨100, "worker"⟩ (by decide),
   (hero_C2_signal_policy termSafeSetW 50 termWorldW rfl (by decide)).1
      ⟨999, "keeper"⟩ (by decide),
   (hero_C2_signal_policy termSafeSetW 50 termWorldW rfl (by decide)).2 50⟩

/-- Claim C3 (counterexample): delivering the terminate signal to the
target raises (`42 ∈ termFail`, access denied), so no signal is delivered
at all, yet `_terminate_process_tree` still returns success — the claim
that success is false exactly when signal delivery fails is false as
stated. -/
theorem hero_C3_counterexample :
    42 ∈ termWorldFail.termFail ∧
    (terminateProcessTree termSafeSetW 42 termWorldFail).termSignaled = [] ∧
    (terminateProcessTree termSafeSetW 42 termWorldFail).success = true := by
  decide

/-- Claim C3 (amended): `_terminate_process_tree` always returns
`success = true` — `NoSuchProcess`/`AccessDenied` during signal delivery
are swallowed (`except: pass`), there is no code path returning
`False`; the status is "already terminated" when the pid does not
resolve and "terminated" otherwise. -/
theorem hero_C3_success_always_true (S : SafeSet) (pid : Nat)
    (w : TermWorld) :
    (terminateProcessTree S pid w).success = true ∧
    (terminateProcessTree S pid w).status =
      (if w.targetExists then "terminated" else "already terminated") := by
  cases h : w.targetExists <;> simp [terminateProcessTree, h]

/-- Claim C4 (code bug evidence): with `verbose = false` (the `--quiet`
flag) and `dry_run = false`, `run` delivers termination signals without
ever showing the confirmation prompt — the `questionary.confirm` call is
nested under `if verbose:` — even though the user would have declined. -/
theorem hero_C4_no_confirmation_when_quiet :
    (run (genesisSafeSet 999) runWorldQuiet false "user" 400 50 15 false
        false).confirmAsked = false ∧
    (run (genesisSafeSet 999) runWorldQuiet false "user" 400 50 15 false
        false).termSignaled = [7] ∧
    runWorldQuiet.confirmAnswer = false := by
  decide

/-- Claim C8: terminating a pid for which no live process exists returns
`(True, "already terminated")` and delivers no signal at all. -/
theorem hero_C8_already_terminated (S : SafeSet) (pid : Nat) (w : TermWorld)
    (h : w.targetExists = false) :
    terminateProcessTree S pid w = ⟨true, "already terminated", [], []⟩ := by
  simp [terminateProcessTree, h]

/-- Witness for C8 at a concrete world. -/
theorem hero_C8_witness :
    terminateProcessTree termSafeSetW 123 termWorldGone =
      ⟨true, "already terminated", [], []⟩ :=
  hero_C8_already_terminated termSafeSetW 123 termWorldGone rfl

/-- Claim C10: `run` returns exit code 0 on every code path — empty
target list, dry run, declined confirmation, and the termination loop
(whatever the per-target outcomes). -/
theorem hero_C10_run_always_zero (S : SafeSet) (w : RunWorld)
    (dry_run : Bool) (scope : String) (memThr cpuThr : ℚ) (limit : Nat)
    (verbose fast : Bool) :
    (run S w dry_run scope memThr cpuThr limit verbose fast).exitCode = 0 := by
  simp only [run]
  split
  · rfl
  · split
    · rfl
    · split
      · rfl
      · exact foldl_runStep_exitCode S w _ _

end Genesis
